import Mathlib

/-!
Shallow embedding of the ZenFS zoned-block-device allocator
(`fs/zbd_zenfs.cc`) together with proofs about its lifetime matching,
zone reset, wear-leveling trigger, token accounting and error handling.

Machine integers are modelled as `Nat`, with explicit reduction
modulo `2 ^ 32` (`uint32_t`) or `2 ^ 64` (`uint64_t`) at the points
where the C code performs fixed-width arithmetic that could wrap.

The file is organised as definitions first (the embedding), then all
theorems.
-/

set_option linter.unusedVariables false

namespace ZbdZenfs

/-- Error kinds of `rocksdb::IOStatus` as they are used in
`fs/zbd_zenfs.cc` (`OK`, `NoSpace`, `IOError`, `Corruption`, `NotFound`,
`NotSupported`, `InvalidArgument`). Messages are irrelevant to control
flow and are dropped. -/
inductive Status where
  | ok
  | noSpace
  | ioError
  | corruption
  | notFound
  | notSupported
  | invalidArgument
deriving DecidableEq, Repr

/-- Embedding of `IOStatus::ok()`. -/
def Status.isOk : Status → Bool
  | .ok => true
  | _ => false

/-- Arithmetic of `uint32_t` addition. -/
def add32 (a b : ℕ) : ℕ := (a + b) % 2 ^ 32

/-- Arithmetic of `uint32_t` subtraction (two's complement wraparound). -/
def sub32 (a b : ℕ) : ℕ := (a + (2 ^ 32 - b % 2 ^ 32)) % 2 ^ 32

/-- Arithmetic of `uint32_t` multiplication. -/
def mul32 (a b : ℕ) : ℕ := (a * b) % 2 ^ 32

/-- Arithmetic of `uint64_t` addition. -/
def add64 (a b : ℕ) : ℕ := (a + b) % 2 ^ 64

/-- Arithmetic of `uint64_t` subtraction (two's complement wraparound). -/
def sub64 (a b : ℕ) : ℕ := (a + (2 ^ 64 - b % 2 ^ 64)) % 2 ^ 64

/-! ### Write lifetime hints

`Env::WriteLifeTimeHint` values, in their RocksDB enumeration order. -/

def WLTH_NOT_SET : ℕ := 0

def WLTH_NONE : ℕ := 1

def WLTH_SHORT : ℕ := 2

def WLTH_MEDIUM : ℕ := 3

def WLTH_LONG : ℕ := 4

def WLTH_EXTREME : ℕ := 5

def LIFETIME_DIFF_NOT_GOOD : ℕ := 100

def LIFETIME_DIFF_COULD_BE_WORSE : ℕ := 50

/-- Embedding of `GetLifeTimeDiff` (zbd_zenfs.cc, lines 626-643). -/
def getLifeTimeDiff (zoneLifetime fileLifetime : ℕ) : ℕ :=
  if fileLifetime = WLTH_NOT_SET ∨ fileLifetime = WLTH_NONE then
    if fileLifetime = zoneLifetime then 0 else LIFETIME_DIFF_NOT_GOOD
  else if fileLifetime < zoneLifetime then zoneLifetime - fileLifetime
  else if zoneLifetime = fileLifetime then LIFETIME_DIFF_COULD_BE_WORSE
  else LIFETIME_DIFF_NOT_GOOD

/-! ### The deferred error latch -/

/-- Embedding of `ZonedBlockDevice::SetZoneDeferredStatus` (zbd_zenfs.cc, lines
1279-1284): the incoming status is stored only when the current latch is
already non-OK. -/
def setZoneDeferredStatus (deferred incoming : Status) : Status :=
  if !deferred.isOk then incoming else deferred

/-- Embedding of `ZonedBlockDevice::GetZoneDeferredStatus` (lines 1274-1277). -/
def getZoneDeferredStatus (deferred : Status) : Status := deferred

/-- The entry check of `ZonedBlockDevice::AllocateIOZone` (lines
1141-1145): if the deferred status is non-OK the function returns it at
once, before any token or zone is touched (`*out_zone` is only assigned
much later, on the normal path). `some s` means "fail fast with `s`". -/
def allocateIoZoneDeferredCheck (deferred : Status) : Option Status :=
  if !(getZoneDeferredStatus deferred).isOk then some (getZoneDeferredStatus deferred)
  else none

/-! ### Device wear-leveling state and the trigger inside `Zone::Reset` -/

/-- The `ZonedBlockDevice` fields read and written by the wear-leveling
trigger that runs at the end of `Zone::Reset` (zbd_zenfs.cc, lines
113-131). `resetRatioThreshold` is a floating-point configuration
value, modelled as a rational. -/
structure DevState where
  totalResetCount : ℕ
  checkResetCount : ℕ
  nrZones : ℕ
  resetRatioThreshold : ℚ
  wlTriggerCount : ℕ
deriving DecidableEq, Repr

/-- The wear-leveling trigger evaluated at the end of `Zone::Reset`
(lines 113-131), after `total_reset_count_` has been incremented.
`metaResets` is the value `GetMetaZoneResetCountNow()` returns at that
point and `stdDev` the value `GetResetCountStdDev()` returns (both read
other state and are passed in as inputs). The boolean result records
whether `WakeupWLWorker()` was called. -/
def wlTrigger (dev : DevState) (metaResets : ℕ) (stdDev : ℚ) : DevState × Bool :=
  let ioResets := sub32 dev.totalResetCount metaResets
  if dev.nrZones < dev.totalResetCount then
    let dev1 := if dev.checkResetCount < dev.nrZones then
        { dev with checkResetCount := dev.nrZones }
      else dev
    let diff := sub32 ioResets dev1.checkResetCount
    if ((mul32 100 diff : ℕ) : ℚ) > (ioResets : ℚ) * dev1.resetRatioThreshold ∧
        dev1.nrZones ≤ diff then
      let dev2 := if 2 ≤ dev1.wlTriggerCount then
          { dev1 with
              wlTriggerCount := 0,
              resetRatioThreshold :=
                dev1.resetRatioThreshold / (1 + (stdDev - 3 / 2) / (3 / 2)) }
        else dev1
      ({ dev2 with checkResetCount := ioResets }, true)
    else (dev1, false)
  else (dev, false)

/-! ### Zone state and the zone operations -/

/-- The mutable fields of a `Zone`, plus the busy flag.  `offline`
records whether the backend most recently reported the zone offline
(the C object has no such field; it is the ghost state needed to state
the "neither full nor offline" side condition of the spec). -/
structure ZoneState where
  start : ℕ
  maxCapacity : ℕ
  wp : ℕ
  capacity : ℕ
  usedCapacity : ℕ
  lifetime : ℕ
  resetCount : ℕ
  busy : Bool
  offline : Bool
deriving DecidableEq, Repr

/-- Embedding of `Zone::IsUsed` (`used_capacity_ > 0`). -/
def ZoneState.isUsed (z : ZoneState) : Bool := decide (0 < z.usedCapacity)

/-- Embedding of `Zone::IsFull` (`capacity_ == 0`). -/
def ZoneState.isFull (z : ZoneState) : Bool := z.capacity == 0

/-- Embedding of `Zone::IsEmpty` (`wp_ == start_`). -/
def ZoneState.isEmpty (z : ZoneState) : Bool := z.wp == z.start

/-- Embedding of `Zone::GetZoneReclaimableSpace` (lines 136-146). -/
def ZoneState.reclaimable (z : ZoneState) : ℕ :=
  if z.isFull then sub64 z.maxCapacity z.usedCapacity
  else sub64 (sub64 z.wp z.start) z.usedCapacity

/-- Embedding of `Zone::Reset` (lines 90-134).  The backend call
`zbd_be_->Reset(start_, &offline, &max_capacity)` is represented by its
result: `backendStatus`, and on success the reported `offline` flag and
the (possibly updated) maximum capacity `newMax`.  On a backend error
the function returns at once with nothing modified.  Otherwise it
updates the zone fields, bumps the two reset counters and runs the
wear-leveling trigger. -/
def zoneReset (z : ZoneState) (backendStatus : Status) (offline : Bool) (newMax : ℕ)
    (dev : DevState) (metaResets : ℕ) (stdDev : ℚ) : Status × ZoneState × DevState :=
  if backendStatus ≠ .ok then (backendStatus, z, dev)
  else
    let z1 := if offline then { z with capacity := 0, offline := true }
      else { z with maxCapacity := newMax, capacity := newMax, offline := false }
    let z2 := { z1 with
        wp := z1.start,
        lifetime := WLTH_NOT_SET,
        resetCount := add32 z1.resetCount 1 }
    let dev1 := { dev with totalResetCount := add32 dev.totalResetCount 1 }
    (.ok, z2, (wlTrigger dev1 metaResets stdDev).1)

/-- Embedding of `Zone::Finish` (lines 148-158): on backend success, sets
`capacity_ := 0` and `wp_ := start_ + zone_size`. -/
def zoneFinish (zoneSize : ℕ) (backendStatus : Status) (z : ZoneState) :
    Status × ZoneState :=
  if backendStatus ≠ .ok then (backendStatus, z)
  else (.ok, { z with capacity := 0, wp := add64 z.start zoneSize })

/-- Embedding of `Zone::Close` (lines 160-169): calls the backend only when the zone
is neither empty nor full; never changes any field. -/
def zoneClose (backendStatus : Status) (z : ZoneState) : Status × ZoneState :=
  if !(z.isEmpty || z.isFull) then
    if backendStatus ≠ .ok then (backendStatus, z) else (.ok, z)
  else (.ok, z)

/-- The write loop of `Zone::Append` (lines 186-197).  `rets` is the
sequence of values successive calls `zbd_be_->Write(ptr, left, wp_)`
return; a negative value makes the loop return an I/O error with the
already-written prefix kept.  `none` models the case where the given
backend trace ends before the loop does (the C loop would keep
calling the backend). -/
def appendLoop : List ℤ → ℕ → ZoneState → Option (Status × ZoneState)
  | _, 0, z => some (.ok, z)
  | [], _ + 1, _ => none
  | r :: rest, left@(_ + 1), z =>
    if r < 0 then some (.ioError, z)
    else
      appendLoop rest (sub32 left r.toNat)
        { z with wp := add64 z.wp r.toNat, capacity := sub64 z.capacity r.toNat }

/-- Embedding of `Zone::Append` (lines 171-200): if `capacity_ < size` it returns
`NoSpace` before writing anything; otherwise it runs the write loop. -/
def zoneAppend (rets : List ℤ) (size : ℕ) (z : ZoneState) :
    Option (Status × ZoneState) :=
  if z.capacity < size then some (.noSpace, z) else appendLoop rets size z

/-- A backend write trace is well formed for a remaining length when
every successful write returns at most the number of bytes it was asked
to write (the `ZoneBackend` contract: `write(buf) → bytes_written ≤
len(buf)`). -/
def traceWf : List ℤ → ℕ → Bool
  | _, 0 => true
  | [], _ + 1 => true
  | r :: rest, left@(_ + 1) =>
    if r < 0 then true
    else decide (r.toNat ≤ left) && traceWf rest (left - r.toNat)

/-- A non-failing backend write trace: every write makes progress
(returns between 1 and the requested length) until the request is
complete. -/
def goodTrace : List ℤ → ℕ → Bool
  | _, 0 => true
  | [], _ + 1 => false
  | r :: rest, left@(_ + 1) =>
    decide (1 ≤ r) && decide (r.toNat ≤ left) && goodTrace rest (left - r.toNat)

/-! ### The per-zone invariant (C5) -/

/-- One mutating zone operation together with the backend response it
receives: `reset` carries the backend status, the reported offline flag
and the new maximum capacity; `finish` and `close` carry the backend
status; `append` carries the backend write trace and the request
size. -/
inductive ZoneOp where
  | append (rets : List ℤ) (size : ℕ)
  | reset (backendStatus : Status) (offline : Bool) (newMax : ℕ)
  | finish (backendStatus : Status)
  | close (backendStatus : Status)

/-- Run one zone operation.  `none` only for an `append` whose backend
trace ends before the write loop does. -/
def zoneStep (zoneSize : ℕ) (dev : DevState) (metaResets : ℕ) (stdDev : ℚ) :
    ZoneOp → ZoneState → Option (Status × ZoneState)
  | .append rets size, z => zoneAppend rets size z
  | .reset bs off newMax, z =>
    some ((zoneReset z bs off newMax dev metaResets stdDev).1,
      (zoneReset z bs off newMax dev metaResets stdDev).2.1)
  | .finish bs, z => some (zoneFinish zoneSize bs z)
  | .close bs, z => some (zoneClose bs z)

/-- The per-zone state invariant.  The write pointer stays between
`start` and `start + max(max_capacity, zone_size)` (after `finish` the
code parks it at `start + zone_size`), an offline zone has capacity 0,
and when the zone is not full `capacity = max_capacity - (wp - start)`,
stated additively.  The size bound keeps the `uint64` arithmetic
exact. -/
def ZoneInv (zoneSize : ℕ) (z : ZoneState) : Prop :=
  z.start ≤ z.wp ∧
  z.wp ≤ z.start + max z.maxCapacity zoneSize ∧
  (z.offline = true → z.capacity = 0) ∧
  (z.capacity ≠ 0 → z.wp + z.capacity = z.start + z.maxCapacity) ∧
  z.start + max z.maxCapacity zoneSize < 2 ^ 64

/-- Side conditions under which an operation's fixed-width arithmetic
cannot wrap: append traces respect the backend contract and the size
fits `uint32`; a reset's new maximum capacity keeps the zone within the
addressable range. -/
def opWf (zoneSize : ℕ) (z : ZoneState) : ZoneOp → Prop
  | .append rets size => traceWf rets size = true ∧ size < 2 ^ 32
  | .reset _ _ newMax => z.start + max newMax zoneSize < 2 ^ 64
  | .finish _ => True
  | .close _ => True

instance (zoneSize : ℕ) (z : ZoneState) : Decidable (ZoneInv zoneSize z) := by
  unfold ZoneInv
  infer_instance

instance (zoneSize : ℕ) (z : ZoneState) (op : ZoneOp) : Decidable (opWf zoneSize z op) := by
  cases op <;> (unfold opWf; infer_instance)

/-! ### `GetBestOpenZoneMatch` (C2) -/

/-- The candidate test of `GetBestOpenZoneMatch` (lines 940-942): the
zone's busy flag could be acquired, and
`used_capacity_ > 0 && !IsFull() && capacity_ >= min_capacity`. -/
def openCandidate (minCapacity : ℕ) (z : ZoneState) : Prop :=
  z.busy = false ∧ 0 < z.usedCapacity ∧ z.capacity ≠ 0 ∧ minCapacity ≤ z.capacity

instance (minCapacity : ℕ) (z : ZoneState) : Decidable (openCandidate minCapacity z) := by
  unfold openCandidate
  infer_instance

/-- The scan loop of `GetBestOpenZoneMatch` (lines 939-964), carrying
the index of the current zone, the best lifetime diff so far and the
index of the currently retained zone.  A zone whose busy flag cannot be
acquired is skipped; an acquired non-candidate is released and skipped;
a candidate replaces the retained zone when its diff satisfies
`diff <= best_diff` (note: not strictly smaller).  Releases of held
zones always succeed here, so the `CheckRelease` error paths are not
taken. -/
def bestOpenScan (fileLifetime minCapacity : ℕ) :
    List ZoneState → ℕ → ℕ → Option ℕ → ℕ × Option ℕ
  | [], _, best, cur => (best, cur)
  | z :: rest, i, best, cur =>
    if openCandidate minCapacity z then
      if getLifeTimeDiff z.lifetime fileLifetime ≤ best then
        bestOpenScan fileLifetime minCapacity rest (i + 1)
          (getLifeTimeDiff z.lifetime fileLifetime) (some i)
      else bestOpenScan fileLifetime minCapacity rest (i + 1) best cur
    else bestOpenScan fileLifetime minCapacity rest (i + 1) best cur

/-- Embedding of `ZonedBlockDevice::GetBestOpenZoneMatch` (lines 932-970): scan all
io zones starting from `best_diff = LIFETIME_DIFF_NOT_GOOD` and no
retained zone; the result is `(best_diff, index of *zone_out)`. -/
def getBestOpenZoneMatch (fileLifetime minCapacity : ℕ) (zones : List ZoneState) :
    ℕ × Option ℕ :=
  bestOpenScan fileLifetime minCapacity zones 0 LIFETIME_DIFF_NOT_GOOD none

/-! ### `ZonedBlockDevice::Open` (C4) -/

def ZENFS_META_ZONES : ℕ := 3

def ZENFS_MIN_ZONES : ℕ := 32

/-- One entry of the backend's zone listing (`ListZones`), with the
per-zone flags `Open` reads: sequential-write-required, offline, active
and open.  The geometry fields (start, wp, capacities) feed the `Zone`
constructor and are irrelevant to the token counters. -/
structure ZDesc where
  swr : Bool
  offline : Bool
  active : Bool
  isOpen : Bool
deriving DecidableEq, Repr

/-- The meta-zone enumeration loop of `Open` (lines 458-467): consume
listing entries, counting sequential-write-required ones (offline or
not), until `ZENFS_META_ZONES` of them have been seen; returns the
suffix of the listing left for the io-zone loop.  (The constructed meta
`Zone` objects play no role in the token counters.) -/
def splitMeta : ℕ → List ZDesc → List ZDesc
  | _, [] => []
  | m, d :: rest =>
    if ZENFS_META_ZONES ≤ m then d :: rest
    else splitMeta (if d.swr then m + 1 else m) rest

/-- The io-zone enumeration loop of `Open` (lines 472-497): for each
sequential-write-required, non-offline zone, `active_io_zones_` is
incremented when the backend reports the zone active.  Open zones are
closed (when not read-only), but `Close` never touches the counter, and
`open_io_zones_` is never incremented here. -/
def ioScanActive : List ZDesc → ℕ → ℕ
  | [], acc => acc
  | d :: rest, acc =>
    if d.swr && !d.offline then
      ioScanActive rest (if d.active then acc + 1 else acc)
    else ioScanActive rest acc

/-- The device counters established by a successful
`ZonedBlockDevice::Open`. -/
structure OpenResult where
  maxActiveIoZones : ℕ
  maxOpenIoZones : ℕ
  activeIoZones : ℕ
  openIoZones : ℕ
deriving DecidableEq, Repr

/-- Embedding of `ZonedBlockDevice::Open` (lines 416-502).  The backend open call is
represented by the limits it reports (`maxActive`, `maxOpen`, 0 meaning
"no device limit") and the zone listing it returns.  `reserved_zones =
2`; the subtraction `max_nr_active_zones - reserved_zones` is `unsigned
int` arithmetic. -/
def zbdOpen (readonly exclusive : Bool) (nrZones maxActive maxOpen : ℕ)
    (listing : List ZDesc) : Status × Option OpenResult :=
  if !readonly && !exclusive then (.invalidArgument, none)
  else if nrZones < ZENFS_MIN_ZONES then (.notSupported, none)
  else
    let maxActiveIo := if maxActive = 0 then nrZones else sub32 maxActive 2
    let maxOpenIo := if maxOpen = 0 then nrZones else sub32 maxOpen 2
    if listing.length ≠ nrZones then (.ioError, none)
    else
      (.ok, some
        { maxActiveIoZones := maxActiveIo,
          maxOpenIoZones := maxOpenIo,
          activeIoZones := ioScanActive (splitMeta 0 listing) 0,
          openIoZones := 0 })

/-! ### `AllocateMetaZone` (C6) -/

/-- A meta zone together with the response the backend would give to a
reset of it (`ZoneBackend.reset(start) -> (offline, new_max_capacity)`
or an error). -/
structure MZone where
  z : ZoneState
  resetStatus : Status
  resetOffline : Bool
  resetNewMax : ℕ
deriving DecidableEq, Repr

/-- Embedding of `ZonedBlockDevice::AllocateMetaZone` (lines 755-780): linearly scan
`meta_zones`; skip zones whose busy flag cannot be acquired; an
acquired zone that is in use is skipped with its busy flag left set
(the code has no release on that path); an acquired unused zone is
selected, after a reset when it is not empty — if that reset fails the
zone is released (`CheckRelease` of a held zone succeeds) and the scan
continues.  The result is the status, the index of the selected zone
(returned busy-held), the updated zone list and the updated device
wear state. -/
def metaScan (metaResets : ℕ) (stdDev : ℚ) :
    DevState → List MZone → Status × Option ℕ × List MZone × DevState
  | dev, [] => (.noSpace, none, [], dev)
  | dev, m :: rest =>
    if m.z.busy then
      let r := metaScan metaResets stdDev dev rest
      (r.1, r.2.1.map (fun k => k + 1), m :: r.2.2.1, r.2.2.2)
    else
      let za := { m.z with busy := true }
      if 0 < za.usedCapacity then
        let r := metaScan metaResets stdDev dev rest
        (r.1, r.2.1.map (fun k => k + 1), { m with z := za } :: r.2.2.1, r.2.2.2)
      else if za.wp ≠ za.start then
        let rr := zoneReset za m.resetStatus m.resetOffline m.resetNewMax dev
          metaResets stdDev
        if rr.1 = .ok then (.ok, some 0, { m with z := rr.2.1 } :: rest, rr.2.2)
        else
          let r := metaScan metaResets stdDev rr.2.2 rest
          (r.1, r.2.1.map (fun k => k + 1),
            { m with z := { rr.2.1 with busy := false } } :: r.2.2.1, r.2.2.2)
      else (.ok, some 0, { m with z := za } :: rest, dev)

/-- Busy-flag accounting of one `AllocateMetaZone` run (the amended
C6 property), for a result `res = (status, selected index, final
zones, device)` over the input list `ms`: the selected zone is handed
back busy-held; zones that were busy at entry are untouched; zones
after the selected one are untouched; an acquirable in-use zone that
the scan reaches is left busy even though it is not selected (the
missing release); an acquirable unused zone the scan reaches but does
not select has its busy flag released. -/
def MetaScanSpec (res : Status × Option ℕ × List MZone × DevState)
    (ms : List MZone) : Prop :=
  res.2.2.1.length = ms.length ∧
  ∀ (i : ℕ) (mi mi' : MZone), ms[i]? = some mi → res.2.2.1[i]? = some mi' →
    (res.2.1 = some i → mi'.z.busy = true) ∧
    (mi.z.busy = true → mi' = mi) ∧
    (∀ k, res.2.1 = some k → k < i → mi' = mi) ∧
    (mi.z.busy = false → 0 < mi.z.usedCapacity →
      (∀ k, res.2.1 = some k → i < k) →
      mi'.z.busy = true ∧ res.2.1 ≠ some i) ∧
    (mi.z.busy = false → mi.z.usedCapacity = 0 →
      (∀ k, res.2.1 = some k → i < k) →
      mi'.z.busy = false)

/-! ### `GetMigrateTargetZone` (C10) -/

/-- Arithmetic of `uint64_t` multiplication. -/
def mul64 (a b : ℕ) : ℕ := (a * b) % 2 ^ 64

/-- Outcome of one scan loop of `GetMigrateTargetZone`: either some
`CheckRelease` failed (`fault`, surfacing as a `Corruption` return) or
the scan finished with an optional busy-held target. -/
inductive MigScanRes where
  | fault
  | done (target : Option ZoneState)
deriving DecidableEq, Repr

/-- Draw the outcome of the next `Zone::CheckRelease` call from the
fault oracle (`true` = the release succeeds, as it always does in a
single-threaded run; `false` = it fails, the situation the code's
`Corruption` paths guard against).  An exhausted oracle means
success. -/
def nextFault : List Bool → Bool × List Bool
  | [] => (true, [])
  | b :: r => (b, r)

/-- First scan of `GetMigrateTargetZone` (lines 658-691): prefer an
empty zone with the highest reset count.  A displaced previous target
is `CheckRelease`d (on failure the current zone is also released and
the scan faults); acquired non-empty zones are released. -/
def migScan1 : List Bool → Option ZoneState → List ZoneState → MigScanRes × List Bool
  | faults, target, [] => (.done target, faults)
  | faults, target, z :: rest =>
    if z.busy then migScan1 faults target rest
    else
      if z.wp = z.start then
        match target with
        | none => migScan1 faults (some { z with busy := true }) rest
        | some t =>
          if t.resetCount < z.resetCount then
            let f1 := nextFault faults
            if f1.1 then migScan1 f1.2 (some { z with busy := true }) rest
            else
              let f2 := nextFault f1.2
              (.fault, f2.2)
          else
            let f1 := nextFault faults
            if f1.1 then migScan1 f1.2 target rest else (.fault, f1.2)
      else
        let f1 := nextFault faults
        if f1.1 then migScan1 f1.2 target rest else (.fault, f1.2)

/-- Second scan of `GetMigrateTargetZone` (lines 706-742): over
non-empty, non-full zones with `capacity >= min_capacity`, maximise
`score = reset_count * reclaimable / max_capacity` (`uint64`
arithmetic), ties to the higher reset count, and only zones whose
lifetime diff is not `NOT_GOOD` are eligible.  Its `CheckRelease`
error exits return directly — no open token is put back by this
loop. -/
def migScan2 (fileLifetime minCapacity : ℕ) :
    List Bool → Option (ZoneState × ℕ) → List ZoneState → MigScanRes × List Bool
  | faults, target, [] => (.done (target.map Prod.fst), faults)
  | faults, target, z :: rest =>
    if z.busy then migScan2 fileLifetime minCapacity faults target rest
    else
      if 0 < z.usedCapacity ∧ z.capacity ≠ 0 ∧ minCapacity ≤ z.capacity then
        let score := mul64 z.resetCount z.reclaimable / z.maxCapacity
        let better := match target with
          | none => true
          | some (t, ts) =>
            decide (ts < score) ||
              (decide (score = ts) && decide (t.resetCount < z.resetCount))
        if better then
          if getLifeTimeDiff z.lifetime fileLifetime ≠ LIFETIME_DIFF_NOT_GOOD then
            match target with
            | none =>
              migScan2 fileLifetime minCapacity faults
                (some ({ z with busy := true }, score)) rest
            | some _ =>
              let f1 := nextFault faults
              if f1.1 then
                migScan2 fileLifetime minCapacity f1.2
                  (some ({ z with busy := true }, score)) rest
              else
                let f2 := nextFault f1.2
                (.fault, f2.2)
          else
            let f1 := nextFault faults
            if f1.1 then migScan2 fileLifetime minCapacity f1.2 target rest
            else (.fault, f1.2)
        else
          let f1 := nextFault faults
          if f1.1 then migScan2 fileLifetime minCapacity f1.2 target rest
          else (.fault, f1.2)
      else
        let f1 := nextFault faults
        if f1.1 then migScan2 fileLifetime minCapacity f1.2 target rest
        else (.fault, f1.2)

/-- The device state `GetMigrateTargetZone` reads and writes: the io
zones, the single-migrator flag and the two token counters. -/
structure MigState where
  zones : List ZoneState
  migrating : Bool
  openIoZones : ℕ
  activeIoZones : ℕ
  maxActiveIoZones : ℕ
deriving DecidableEq, Repr

/-- What `GetMigrateTargetZone` leaves behind: the returned status, the
target handed out (busy-held), and the `migrating_` flag and token
counters at return. -/
structure MigResult where
  status : Status
  out : Option ZoneState
  migrating : Bool
  openIoZones : ℕ
  activeIoZones : ℕ
deriving DecidableEq, Repr

/-- Embedding of `ZonedBlockDevice::GetMigrateTargetZone` (lines 645-753), entered
once the migrate condition variable has observed `!migrating_` (the
precondition of the theorems below).  It sets `migrating_ := true`,
takes an open token (prioritized), runs the empty-zone scan; on a
target it tries an active token (assigning the lifetime), otherwise it
puts the open token back, releases the candidate and falls through to
the non-empty scan.  Error exits of the first scan put the open token
back; error exits of the second scan do not.  Only the `NotFound` exit
clears `migrating_`. -/
def getMigrateTargetZone (s : MigState) (faults : List Bool)
    (fileLifetime minCapacity : ℕ) : MigResult :=
  let opened := s.openIoZones + 1
  match migScan1 faults none s.zones with
  | (.fault, _) =>
    { status := .corruption, out := none, migrating := true,
      openIoZones := opened - 1, activeIoZones := s.activeIoZones }
  | (.done (some t), f1) =>
    if s.activeIoZones < s.maxActiveIoZones then
      { status := .ok, out := some { t with lifetime := fileLifetime },
        migrating := true, openIoZones := opened,
        activeIoZones := s.activeIoZones + 1 }
    else
      match migScan2 fileLifetime minCapacity f1 none s.zones with
      | (.fault, _) =>
        { status := .corruption, out := none, migrating := true,
          openIoZones := opened - 1, activeIoZones := s.activeIoZones }
      | (.done (some z2), _) =>
        { status := .ok, out := some z2, migrating := true,
          openIoZones := opened - 1, activeIoZones := s.activeIoZones }
      | (.done none, _) =>
        { status := .notFound, out := none, migrating := false,
          openIoZones := opened - 1, activeIoZones := s.activeIoZones }
  | (.done none, f1) =>
    match migScan2 fileLifetime minCapacity f1 none s.zones with
    | (.fault, _) =>
      { status := .corruption, out := none, migrating := true,
        openIoZones := opened, activeIoZones := s.activeIoZones }
    | (.done (some z2), _) =>
      { status := .ok, out := some z2, migrating := true,
        openIoZones := opened, activeIoZones := s.activeIoZones }
    | (.done none, _) =>
      { status := .notFound, out := none, migrating := false,
        openIoZones := opened, activeIoZones := s.activeIoZones }

/-! ### Concrete inputs used by counterexamples and witnesses -/

/-- A non-busy, non-empty io zone holding no live data. -/
def zoneC10 : ZoneState :=
  { start := 0, maxCapacity := 100, wp := 40, capacity := 60, usedCapacity := 0,
    lifetime := 0, resetCount := 0, busy := false, offline := false }

/-- Migration state with a single such zone, no migration in flight,
7 open tokens out and no active token available. -/
def migC10 : MigState :=
  { zones := [zoneC10], migrating := false, openIoZones := 7,
    activeIoZones := 0, maxActiveIoZones := 5 }

/-- A meta zone holding live metadata (in use), busy flag free. -/
def mzUsed : MZone :=
  { z := { start := 0, maxCapacity := 100, wp := 40, capacity := 60,
           usedCapacity := 5, lifetime := 0, resetCount := 0, busy := false,
           offline := false },
    resetStatus := .ok, resetOffline := false, resetNewMax := 100 }

/-- An empty, unused meta zone, busy flag free. -/
def mzEmpty : MZone :=
  { z := { start := 0, maxCapacity := 100, wp := 0, capacity := 100,
           usedCapacity := 0, lifetime := 0, resetCount := 0, busy := false,
           offline := false },
    resetStatus := .ok, resetOffline := false, resetNewMax := 100 }

/-- Device wear state for the meta-allocation runs. -/
def devC6 : DevState :=
  { totalResetCount := 0, checkResetCount := 0, nrZones := 32,
    resetRatioThreshold := 0, wlTriggerCount := 0 }

/-- A plain sequential-write-required, non-offline, inactive zone
listing entry. -/
def descPlain : ZDesc :=
  { swr := true, offline := false, active := false, isOpen := false }

/-- A listing entry the backend reports active and open. -/
def descActive : ZDesc :=
  { swr := true, offline := false, active := true, isOpen := true }

/-- A 35-zone listing: 3 meta zones, then 32 io zones of which one is
active and open. -/
def listingC4 : List ZDesc :=
  List.replicate 3 descPlain ++ descActive :: List.replicate 31 descPlain

/-- An open zone holding live data, with lifetime hint `NOT_SET`. -/
def zoneC2 : ZoneState :=
  { start := 0, maxCapacity := 100, wp := 10, capacity := 90, usedCapacity := 1,
    lifetime := WLTH_NOT_SET, resetCount := 0, busy := false, offline := false }

/-- A freshly reset 4 KiB-capacity zone of an 8 KiB-zone-size device. -/
def zoneC5 : ZoneState :=
  { start := 0, maxCapacity := 4096, wp := 0, capacity := 4096, usedCapacity := 0,
    lifetime := 0, resetCount := 0, busy := true, offline := false }

/-- A half-written 100-byte zone used by the reset witness. -/
def zoneC7 : ZoneState :=
  { start := 0, maxCapacity := 100, wp := 50, capacity := 50, usedCapacity := 0,
    lifetime := 3, resetCount := 7, busy := true, offline := false }

/-- Device wear state used by the reset witness. -/
def devC7 : DevState :=
  { totalResetCount := 10, checkResetCount := 0, nrZones := 32,
    resetRatioThreshold := 50, wlTriggerCount := 0 }

/-- Device wear state on which the trigger conditions fail
(`100 * diff = 100` is not greater than `io_resets * threshold = 150`). -/
def devC3 : DevState :=
  { totalResetCount := 3, checkResetCount := 0, nrZones := 2,
    resetRatioThreshold := 50, wlTriggerCount := 0 }

/-- Device wear state on which the trigger conditions hold with
`wl_trigger_count = 2`, so the threshold is damped. -/
def devC3w : DevState :=
  { totalResetCount := 100, checkResetCount := 0, nrZones := 2,
    resetRatioThreshold := 0, wlTriggerCount := 2 }

/-! ### Spec-side vocabulary for the wear-leveling trigger (C3)

These definitions restate the quantities named by the spec sentence
("`io_resets`", the floored `check_reset_count`, the "reset-count diff"
and the two trigger conditions) in plain arithmetic; the theorems below
relate the trigger code to them. -/

/-- The spec's `io_resets = total_resets - meta_resets_now`. -/
def specIoResets (dev : DevState) (metaResets : ℕ) : ℕ :=
  dev.totalResetCount - metaResets

/-- The value of `check_reset_count` after being floored to `nr_zones`. -/
def specCheckFloored (dev : DevState) : ℕ :=
  max dev.checkResetCount dev.nrZones

/-- The spec's reset-count diff `io_resets - check_reset_count`
(after flooring). -/
def specResetDiff (dev : DevState) (metaResets : ℕ) : ℕ :=
  specIoResets dev metaResets - specCheckFloored dev

/-- The two trigger conditions of the spec:
`100 * diff > io_resets * reset_ratio_threshold` and
`diff >= nr_zones`. -/
def specTriggerCond (dev : DevState) (metaResets : ℕ) : Prop :=
  ((100 * specResetDiff dev metaResets : ℕ) : ℚ) >
      (specIoResets dev metaResets : ℚ) * dev.resetRatioThreshold ∧
    dev.nrZones ≤ specResetDiff dev metaResets

instance (dev : DevState) (metaResets : ℕ) : Decidable (specTriggerCond dev metaResets) := by
  unfold specTriggerCond
  infer_instance

/-! ### Arithmetic helper lemmas -/

theorem add32_eq {a b : ℕ} (h : a + b < 2 ^ 32) : add32 a b = a + b := by
  unfold add32; omega

theorem sub32_eq {a b : ℕ} (hb : b ≤ a) (ha : a < 2 ^ 32) : sub32 a b = a - b := by
  unfold sub32; omega

theorem mul32_eq {a b : ℕ} (h : a * b < 2 ^ 32) : mul32 a b = a * b := by
  unfold mul32; exact Nat.mod_eq_of_lt h

theorem add64_eq {a b : ℕ} (h : a + b < 2 ^ 64) : add64 a b = a + b := by
  unfold add64; omega

theorem sub64_eq {a b : ℕ} (hb : b ≤ a) (ha : a < 2 ^ 64) : sub64 a b = a - b := by
  unfold sub64; omega

/-! ### C9: the lifetime-diff table -/

/-- C9: `GetLifeTimeDiff` matches the spec table: for `file_lifetime` in
`{NOT_SET, NONE}` the diff is `0` on an exact match and `100` otherwise;
for every other file hint the diff is `50` on equality,
`zone - file` when the zone hint is larger, and `100` when it is
smaller. -/
theorem C9_getLifeTimeDiff_table :
    ∀ zoneLifetime : ℕ, zoneLifetime ≤ WLTH_EXTREME →
    ∀ fileLifetime : ℕ, fileLifetime ≤ WLTH_EXTREME →
      ((fileLifetime = WLTH_NOT_SET ∨ fileLifetime = WLTH_NONE) →
        getLifeTimeDiff zoneLifetime fileLifetime =
          if zoneLifetime = fileLifetime then 0 else LIFETIME_DIFF_NOT_GOOD) ∧
      (fileLifetime ≠ WLTH_NOT_SET → fileLifetime ≠ WLTH_NONE →
        (zoneLifetime = fileLifetime →
          getLifeTimeDiff zoneLifetime fileLifetime = LIFETIME_DIFF_COULD_BE_WORSE) ∧
        (fileLifetime < zoneLifetime →
          getLifeTimeDiff zoneLifetime fileLifetime = zoneLifetime - fileLifetime) ∧
        (zoneLifetime < fileLifetime →
          getLifeTimeDiff zoneLifetime fileLifetime = LIFETIME_DIFF_NOT_GOOD)) := by
  unfold WLTH_EXTREME
  intro zl hzl fl hfl
  interval_cases zl <;> interval_cases fl <;> decide

/-- Witness for C9: a `LONG` zone receiving `SHORT` data has diff `2`,
and an exact `NOT_SET` match has diff `0`. -/
theorem C9_getLifeTimeDiff_table_witness :
    getLifeTimeDiff WLTH_LONG WLTH_SHORT = 2 ∧
    getLifeTimeDiff WLTH_NOT_SET WLTH_NOT_SET = 0 :=
  ⟨((C9_getLifeTimeDiff_table WLTH_LONG (by decide) WLTH_SHORT (by decide)).2
      (by decide) (by decide)).2.1 (by decide),
   (C9_getLifeTimeDiff_table WLTH_NOT_SET (by decide) WLTH_NOT_SET (by decide)).1
      (Or.inl rfl)⟩

/-! ### C1: the deferred error latch -/

/-- C1 (code bug evidence): the guard of `SetZoneDeferredStatus` is
inverted, so a first backend I/O error arriving while the latch is OK is
never recorded, and a subsequent `AllocateIOZone` does not fail fast.
Conversely, a latch that somehow is non-OK does make `AllocateIOZone`
return it immediately, as the claim describes. -/
theorem C1_setZoneDeferredStatus_code_bug :
    setZoneDeferredStatus Status.ok Status.ioError = Status.ok ∧
    setZoneDeferredStatus Status.ok Status.ioError ≠ Status.ioError ∧
    allocateIoZoneDeferredCheck (setZoneDeferredStatus Status.ok Status.ioError) = none ∧
    allocateIoZoneDeferredCheck Status.ioError = some Status.ioError := by
  decide

/-! ### The wear-leveling trigger -/

/-- The trigger never modifies `total_reset_count_`. -/
theorem wlTrigger_totalResetCount (dev : DevState) (mr : ℕ) (sd : ℚ) :
    ((wlTrigger dev mr sd).1).totalResetCount = dev.totalResetCount := by
  simp only [wlTrigger]
  repeat' split
  all_goals rfl

/-- Reduction of the trigger, once `total_resets > nr_zones`, under the
side conditions that make its `uint32` arithmetic exact: the result is
an `if` on the spec's two conditions. -/
theorem wlTrigger_reduce (dev : DevState) (mr : ℕ) (sd : ℚ)
    (h1 : dev.nrZones < dev.totalResetCount)
    (h2 : mr ≤ dev.totalResetCount)
    (h3 : dev.totalResetCount < 2 ^ 25)
    (h4 : specCheckFloored dev ≤ specIoResets dev mr) :
    wlTrigger dev mr sd =
      if specTriggerCond dev mr then
        (if 2 ≤ dev.wlTriggerCount then
          { dev with
              checkResetCount := specIoResets dev mr,
              wlTriggerCount := 0,
              resetRatioThreshold :=
                dev.resetRatioThreshold / (1 + (sd - 3 / 2) / (3 / 2)) }
        else { dev with checkResetCount := specIoResets dev mr }, true)
      else ({ dev with checkResetCount := specCheckFloored dev }, false) := by
  have h32 : dev.totalResetCount < 2 ^ 32 := by
    have hp : (2 : ℕ) ^ 25 < 2 ^ 32 := by norm_num
    omega
  have hio : sub32 dev.totalResetCount mr = specIoResets dev mr :=
    sub32_eq h2 h32
  have hiolt : specIoResets dev mr < 2 ^ 32 := by
    unfold specIoResets; omega
  have hmul : mul32 100 (specResetDiff dev mr) = 100 * specResetDiff dev mr := by
    apply mul32_eq
    have hd : specResetDiff dev mr ≤ dev.totalResetCount := by
      unfold specResetDiff specIoResets; omega
    have hp : (2 : ℕ) ^ 25 < 2 ^ 32 := by norm_num
    omega
  by_cases hc : dev.checkResetCount < dev.nrZones
  · have hfl : specCheckFloored dev = dev.nrZones := by
      unfold specCheckFloored; omega
    have hnr : dev.nrZones ≤ specIoResets dev mr := by rw [← hfl]; exact h4
    have hdiff : sub32 (specIoResets dev mr) dev.nrZones = specResetDiff dev mr := by
      rw [sub32_eq hnr hiolt]
      unfold specResetDiff
      rw [hfl]
    simp only [wlTrigger, if_pos h1, if_pos hc, hio]
    rw [hdiff, hmul]
    simp only [specTriggerCond, hfl]
    split
    · split <;> rfl
    · rfl
  · have hfl : specCheckFloored dev = dev.checkResetCount := by
      unfold specCheckFloored; omega
    have hck : dev.checkResetCount ≤ specIoResets dev mr := by rw [← hfl]; exact h4
    have hdiff : sub32 (specIoResets dev mr) dev.checkResetCount =
        specResetDiff dev mr := by
      rw [sub32_eq hck hiolt]
      unfold specResetDiff
      rw [hfl]
    simp only [wlTrigger, if_pos h1, if_neg hc, hio]
    rw [hdiff, hmul]
    simp only [specTriggerCond, hfl]
    split
    · split <;> rfl
    · rfl

/-- C3 (counterexample): at `devC3` (`total_resets = 3 > nr_zones = 2`,
`check_reset_count` floored to 2, diff 1) the percent condition
`100 * 1 > 3 * 50` fails, and the trigger leaves `wl_trigger_count`
untouched at 0 — it is not incremented as the claim states. -/
theorem C3_wlTrigger_counterexample :
    (wlTrigger devC3 0 (3 / 2)).1.wlTriggerCount = 0 ∧
    devC3.wlTriggerCount = 0 ∧
    (wlTrigger devC3 0 (3 / 2)).1.wlTriggerCount ≠ devC3.wlTriggerCount + 1 ∧
    (wlTrigger devC3 0 (3 / 2)).2 = false ∧
    (wlTrigger devC3 0 (3 / 2)).1.checkResetCount = 2 := by
  have hn : ¬specTriggerCond devC3 0 := fun hcd => absurd hcd.2 (by decide)
  rw [wlTrigger_reduce devC3 0 (3 / 2) (by decide) (by decide) (by decide) (by decide),
    if_neg hn]
  exact ⟨rfl, rfl, by decide, rfl, by decide⟩

/-- C3 (amended): once `total_resets > nr_zones`, if the two diff
conditions both hold then the worker is woken, `check_reset_count` is
set to `io_resets`, and with `wl_trigger_count >= 2` the threshold is
damped by `1 + (sigma - 1.5) / 1.5` and the counter reset to 0 (with
`wl_trigger_count < 2` both are unchanged); if the conditions do not
both hold the trigger only floors `check_reset_count` to `nr_zones` and
leaves `wl_trigger_count`, the threshold and the worker untouched (it
does not increment `wl_trigger_count`). -/
theorem C3_wlTrigger_amended (dev : DevState) (mr : ℕ) (sd : ℚ)
    (h1 : dev.nrZones < dev.totalResetCount)
    (h2 : mr ≤ dev.totalResetCount)
    (h3 : dev.totalResetCount < 2 ^ 25)
    (h4 : specCheckFloored dev ≤ specIoResets dev mr) :
    (specTriggerCond dev mr →
      (wlTrigger dev mr sd).2 = true ∧
      (wlTrigger dev mr sd).1.checkResetCount = specIoResets dev mr ∧
      (2 ≤ dev.wlTriggerCount →
        (wlTrigger dev mr sd).1.wlTriggerCount = 0 ∧
        (wlTrigger dev mr sd).1.resetRatioThreshold =
          dev.resetRatioThreshold / (1 + (sd - 3 / 2) / (3 / 2))) ∧
      (dev.wlTriggerCount < 2 →
        (wlTrigger dev mr sd).1.wlTriggerCount = dev.wlTriggerCount ∧
        (wlTrigger dev mr sd).1.resetRatioThreshold = dev.resetRatioThreshold)) ∧
    (¬specTriggerCond dev mr →
      (wlTrigger dev mr sd).2 = false ∧
      (wlTrigger dev mr sd).1.wlTriggerCount = dev.wlTriggerCount ∧
      (wlTrigger dev mr sd).1.resetRatioThreshold = dev.resetRatioThreshold ∧
      (wlTrigger dev mr sd).1.checkResetCount = specCheckFloored dev) := by
  rw [wlTrigger_reduce dev mr sd h1 h2 h3 h4]
  by_cases hcond : specTriggerCond dev mr
  · rw [if_pos hcond]
    refine ⟨fun _ => ?_, fun hn => absurd hcond hn⟩
    by_cases hwl : 2 ≤ dev.wlTriggerCount
    · rw [if_pos hwl]
      exact ⟨rfl, rfl, fun _ => ⟨rfl, rfl⟩, fun hlt => absurd hwl (by omega)⟩
    · rw [if_neg hwl]
      exact ⟨rfl, rfl, fun hge => absurd hge hwl, fun _ => ⟨rfl, rfl⟩⟩
  · rw [if_neg hcond]
    exact ⟨fun hcd => absurd hcd hcond, fun _ => ⟨rfl, rfl, rfl, rfl⟩⟩

/-- Witness for C3 at `devC3w`: both trigger conditions hold
(`100 * 98 > 100 * 0`, `98 >= 2`) with `wl_trigger_count = 2`, so the
worker is woken, `check_reset_count` becomes 100, the counter is reset
and the (zero) threshold is damped to `0 / (1 + (3 - 1.5) / 1.5) = 0`. -/
theorem C3_wlTrigger_amended_witness :
    (wlTrigger devC3w 0 3).2 = true ∧
    (wlTrigger devC3w 0 3).1.checkResetCount = 100 ∧
    (wlTrigger devC3w 0 3).1.wlTriggerCount = 0 ∧
    (wlTrigger devC3w 0 3).1.resetRatioThreshold = 0 := by
  have hcond : specTriggerCond devC3w 0 := by
    constructor
    · simp [specResetDiff, specIoResets, specCheckFloored, devC3w]
    · decide
  have h := (C3_wlTrigger_amended devC3w 0 3 (by decide) (by decide) (by decide)
    (by decide)).1 hcond
  refine ⟨h.1, ?_, (h.2.2.1 (by decide)).1, ?_⟩
  · rw [h.2.1]
    decide
  · rw [(h.2.2.1 (by decide)).2]
    simp
    exact Or.inl rfl

/-! ### C7: postconditions of `Zone::Reset` -/

/-- C7: under the preconditions busy-held and not-used, a successful
`Zone::Reset` leaves `wp = start`, `used_capacity = 0`,
`lifetime = NOT_SET`, increments the zone's `reset_count` and the
device-wide `total_reset_count` by one; if the backend does not report
the zone offline it installs the reported capacity as both
`max_capacity` and `capacity`, and if it does it sets `capacity := 0`
and keeps `max_capacity`; on a backend error nothing changes. -/
theorem C7_zoneReset_postconditions (z : ZoneState) (bs : Status) (off : Bool)
    (newMax : ℕ) (dev : DevState) (mr : ℕ) (sd : ℚ)
    (hused : z.usedCapacity = 0)
    (hrc : z.resetCount + 1 < 2 ^ 32)
    (htot : dev.totalResetCount + 1 < 2 ^ 32) :
    (bs ≠ .ok → zoneReset z bs off newMax dev mr sd = (bs, z, dev)) ∧
    (bs = .ok →
      (zoneReset z bs off newMax dev mr sd).1 = .ok ∧
      (zoneReset z bs off newMax dev mr sd).2.1.wp = z.start ∧
      (zoneReset z bs off newMax dev mr sd).2.1.usedCapacity = 0 ∧
      (zoneReset z bs off newMax dev mr sd).2.1.lifetime = WLTH_NOT_SET ∧
      (zoneReset z bs off newMax dev mr sd).2.1.resetCount = z.resetCount + 1 ∧
      (zoneReset z bs off newMax dev mr sd).2.2.totalResetCount =
        dev.totalResetCount + 1 ∧
      (off = true →
        (zoneReset z bs off newMax dev mr sd).2.1.capacity = 0 ∧
        (zoneReset z bs off newMax dev mr sd).2.1.maxCapacity = z.maxCapacity) ∧
      (off = false →
        (zoneReset z bs off newMax dev mr sd).2.1.maxCapacity = newMax ∧
        (zoneReset z bs off newMax dev mr sd).2.1.capacity = newMax)) := by
  constructor
  · intro h
    simp [zoneReset, h]
  · intro h
    subst h
    cases off <;>
      simp [zoneReset, wlTrigger_totalResetCount, add32_eq hrc, add32_eq htot, hused]

/-- Witness for C7 at a concrete zone and device state, with a
successful, not-offline backend reset reporting a new maximum capacity
of 96 bytes. -/
theorem C7_zoneReset_postconditions_witness :
    (zoneReset zoneC7 .ok false 96 devC7 0 0).1 = .ok ∧
    (zoneReset zoneC7 .ok false 96 devC7 0 0).2.1.wp = zoneC7.start ∧
    (zoneReset zoneC7 .ok false 96 devC7 0 0).2.1.resetCount = zoneC7.resetCount + 1 ∧
    (zoneReset zoneC7 .ok false 96 devC7 0 0).2.2.totalResetCount =
      devC7.totalResetCount + 1 ∧
    (zoneReset zoneC7 .ok false 96 devC7 0 0).2.1.maxCapacity = 96 := by
  have h := (C7_zoneReset_postconditions zoneC7 .ok false 96 devC7 0 0 rfl
    (by decide) (by decide)).2 rfl
  exact ⟨h.1, h.2.1, h.2.2.2.2.1, h.2.2.2.2.2.1, (h.2.2.2.2.2.2.2 rfl).1⟩

/-! ### The append write loop -/

/-- The write loop preserves the zone invariant: each partial write
advances `wp` and shrinks `capacity` by the same amount, and the
remaining request never exceeds the remaining capacity. -/
theorem appendLoop_inv (zoneSize : ℕ) :
    ∀ (rets : List ℤ) (left : ℕ) (z : ZoneState),
      traceWf rets left = true → left < 2 ^ 32 → left ≤ z.capacity →
      ZoneInv zoneSize z →
      ∀ st z1, appendLoop rets left z = some (st, z1) → ZoneInv zoneSize z1 := by
  intro rets
  induction rets with
  | nil =>
    intro left z hwf hlt hle hinv st z1 heq
    cases left with
    | zero =>
      simp only [appendLoop, Option.some.injEq, Prod.mk.injEq] at heq
      rw [← heq.2]
      exact hinv
    | succ l =>
      rw [appendLoop] at heq
      exact Option.noConfusion heq
  | cons r rest ih =>
    intro left z hwf hlt hle hinv st z1 heq
    cases left with
    | zero =>
      simp only [appendLoop, Option.some.injEq, Prod.mk.injEq] at heq
      rw [← heq.2]
      exact hinv
    | succ l =>
      rw [appendLoop] at heq
      by_cases hr : r < 0
      · rw [if_pos hr] at heq
        simp only [Option.some.injEq, Prod.mk.injEq] at heq
        rw [← heq.2]
        exact hinv
      · rw [if_neg hr] at heq
        rw [traceWf, if_neg hr, Bool.and_eq_true, decide_eq_true_eq] at hwf
        obtain ⟨hrle, hwf'⟩ := hwf
        obtain ⟨hi1, hi2, hi3, hi4, hi5⟩ := hinv
        have hcap0 : z.capacity ≠ 0 := by omega
        have heqcap : z.wp + z.capacity = z.start + z.maxCapacity := hi4 hcap0
        have hmaxle : z.maxCapacity ≤ max z.maxCapacity zoneSize := le_max_left _ _
        have hrcap : r.toNat ≤ z.capacity := by omega
        have hwplt : z.wp + r.toNat < 2 ^ 64 := by omega
        have hcaplt : z.capacity < 2 ^ 64 := by omega
        rw [sub32_eq hrle hlt, add64_eq hwplt, sub64_eq hrcap hcaplt] at heq
        exact ih (l + 1 - r.toNat)
          { z with wp := z.wp + r.toNat, capacity := z.capacity - r.toNat }
          hwf' (by omega)
          (show l + 1 - r.toNat ≤ z.capacity - r.toNat by omega)
          ⟨show z.start ≤ z.wp + r.toNat by omega,
           show z.wp + r.toNat ≤ z.start + max z.maxCapacity zoneSize by omega,
           fun hoff => absurd (hi3 hoff) hcap0,
           fun _ => show z.wp + r.toNat + (z.capacity - r.toNat) =
             z.start + z.maxCapacity by omega,
           show z.start + max z.maxCapacity zoneSize < 2 ^ 64 from hi5⟩ st z1 heq

/-- With a non-failing backend trace the write loop runs to completion
and returns OK. -/
theorem appendLoop_good :
    ∀ (rets : List ℤ) (left : ℕ) (z : ZoneState),
      goodTrace rets left = true → left < 2 ^ 32 →
      ∃ z1, appendLoop rets left z = some (.ok, z1) := by
  intro rets
  induction rets with
  | nil =>
    intro left z hg hlt
    cases left with
    | zero => exact ⟨z, rfl⟩
    | succ l =>
      rw [goodTrace] at hg
      exact Bool.noConfusion hg
  | cons r rest ih =>
    intro left z hg hlt
    cases left with
    | zero => exact ⟨z, rfl⟩
    | succ l =>
      rw [goodTrace, Bool.and_eq_true, Bool.and_eq_true, decide_eq_true_eq,
        decide_eq_true_eq] at hg
      obtain ⟨⟨hr1, hrle⟩, hg'⟩ := hg
      have hr : ¬r < 0 := by omega
      rw [appendLoop, if_neg hr, sub32_eq hrle hlt]
      exact ih (l + 1 - r.toNat) _ hg' (by omega)

/-! ### C8: `Zone::Append` and `NoSpace` -/

/-- C8: `Zone::Append` with `size` exceeding the remaining capacity
returns `NoSpace` with no partial write; a zero-length append returns
OK without touching the state; and, for a non-failing backend trace,
append returns `NoSpace` exactly when the requested size exceeds the
remaining capacity. -/
theorem C8_append_noSpace_iff (z : ZoneState) (rets : List ℤ) (size : ℕ)
    (hsz : size < 2 ^ 32) :
    (z.capacity < size → zoneAppend rets size z = some (.noSpace, z)) ∧
    (zoneAppend rets 0 z = some (.ok, z)) ∧
    (size ≤ z.capacity → goodTrace rets size = true →
      ∃ z1, zoneAppend rets size z = some (.ok, z1)) ∧
    (goodTrace rets size = true →
      ∀ st z1, zoneAppend rets size z = some (st, z1) →
        (st = .noSpace ↔ z.capacity < size)) := by
  refine ⟨fun hlt => by rw [zoneAppend, if_pos hlt], ?_, fun hle hg => ?_, fun hg st z1 heq => ?_⟩
  · rw [zoneAppend, if_neg (by omega)]
    cases rets <;> rfl
  · rw [zoneAppend, if_neg (by omega)]
    exact appendLoop_good rets size z hg hsz
  · constructor
    · intro hst
      by_contra hnlt
      rw [zoneAppend, if_neg (by omega)] at heq
      obtain ⟨z2, h2⟩ := appendLoop_good rets size z hg hsz
      rw [h2] at heq
      simp only [Option.some.injEq, Prod.mk.injEq] at heq
      rw [hst] at heq
      exact Status.noConfusion heq.1
    · intro hlt
      rw [zoneAppend, if_pos hlt] at heq
      simp only [Option.some.injEq, Prod.mk.injEq] at heq
      rw [← heq.1]

/-- Witness for C8 on a freshly reset 4096-byte zone: appending
`capacity + 1 = 4097` bytes returns `NoSpace` with the zone unchanged,
and appending 4096 bytes in two 2048-byte backend writes succeeds. -/
theorem C8_append_noSpace_iff_witness :
    zoneAppend [4096] 4097 zoneC5 = some (.noSpace, zoneC5) ∧
    ∃ z1, zoneAppend [2048, 2048] 4096 zoneC5 = some (.ok, z1) :=
  ⟨(C8_append_noSpace_iff zoneC5 [4096] 4097 (by decide)).1 (by decide),
   (C8_append_noSpace_iff zoneC5 [2048, 2048] 4096 (by decide)).2.2.1 (by decide)
     (by decide)⟩

/-! ### C5: the per-zone invariant across the zone operations -/

/-- C5 (amended): every zone operation (append, reset, finish, close)
preserves `start <= wp <= start + max(max_capacity, zone_size)` and
`capacity = max_capacity - (wp - start)` whenever the zone is neither
full nor offline; a successful `Zone::Finish` sets `capacity := 0` and
`wp := start + zone_size`, which exceeds `start + max_capacity` whenever
`zone_size > max_capacity`. -/
theorem C5_zone_invariant_amended (zoneSize : ℕ) (dev : DevState) (mr : ℕ) (sd : ℚ)
    (op : ZoneOp) (z : ZoneState) (hinv : ZoneInv zoneSize z)
    (hop : opWf zoneSize z op) :
    (∀ st z1, zoneStep zoneSize dev mr sd op z = some (st, z1) →
      ZoneInv zoneSize z1) ∧
    (∀ z1, zoneStep zoneSize dev mr sd (.finish .ok) z = some (.ok, z1) →
      z1.capacity = 0 ∧ z1.wp = z.start + zoneSize) := by
  obtain ⟨hi1, hi2, hi3, hi4, hi5⟩ := hinv
  have hzslt : z.start + zoneSize < 2 ^ 64 := by
    have := le_max_right z.maxCapacity zoneSize
    omega
  constructor
  · intro st z1 heq
    cases op with
    | append rets size =>
      obtain ⟨hwf, hsz⟩ := hop
      rw [zoneStep, zoneAppend] at heq
      by_cases hlt : z.capacity < size
      · rw [if_pos hlt] at heq
        simp only [Option.some.injEq, Prod.mk.injEq] at heq
        rw [← heq.2]
        exact ⟨hi1, hi2, hi3, hi4, hi5⟩
      · rw [if_neg hlt] at heq
        exact appendLoop_inv zoneSize rets size z hwf hsz (by omega)
          ⟨hi1, hi2, hi3, hi4, hi5⟩ st z1 heq
    | reset bs off newMax =>
      rw [zoneStep, zoneReset] at heq
      by_cases hbs : bs = .ok
      · rw [if_neg (by simp [hbs])] at heq
        simp only [Option.some.injEq, Prod.mk.injEq] at heq
        rw [← heq.2]
        cases off with
        | true =>
          exact ⟨le_refl _, Nat.le_add_right _ _, fun _ => rfl,
            fun hc => absurd rfl hc, hi5⟩
        | false =>
          exact ⟨le_refl _, Nat.le_add_right _ _, fun h => Bool.noConfusion h,
            fun _ => rfl, hop⟩
      · rw [if_pos (by simp [hbs])] at heq
        simp only [Option.some.injEq, Prod.mk.injEq] at heq
        rw [← heq.2]
        exact ⟨hi1, hi2, hi3, hi4, hi5⟩
    | finish bs =>
      rw [zoneStep, zoneFinish] at heq
      by_cases hbs : bs = .ok
      · rw [if_neg (by simp [hbs])] at heq
        simp only [Option.some.injEq, Prod.mk.injEq] at heq
        rw [← heq.2]
        rw [add64_eq hzslt]
        have hmr : zoneSize ≤ max z.maxCapacity zoneSize := le_max_right _ _
        exact ⟨Nat.le_add_right _ _,
          show z.start + zoneSize ≤ z.start + max z.maxCapacity zoneSize by omega,
          fun _ => rfl, fun hc => absurd rfl hc, hi5⟩
      · rw [if_pos (by simp [hbs])] at heq
        simp only [Option.some.injEq, Prod.mk.injEq] at heq
        rw [← heq.2]
        exact ⟨hi1, hi2, hi3, hi4, hi5⟩
    | close bs =>
      rw [zoneStep, zoneClose] at heq
      split at heq
      · split at heq <;>
          (simp only [Option.some.injEq, Prod.mk.injEq] at heq;
           rw [← heq.2];
           exact ⟨hi1, hi2, hi3, hi4, hi5⟩)
      · simp only [Option.some.injEq, Prod.mk.injEq] at heq
        rw [← heq.2]
        exact ⟨hi1, hi2, hi3, hi4, hi5⟩
  · intro z1 heq
    rw [zoneStep, zoneFinish, if_neg (by simp)] at heq
    simp only [Option.some.injEq, Prod.mk.injEq] at heq
    rw [← heq.2]
    exact ⟨rfl, add64_eq hzslt⟩

/-- C5 (counterexample): `zoneC5` satisfies the invariant on a device
with `zone_size = 8192 > max_capacity = 4096`; a successful
`Zone::Finish` then parks `wp` at `start + zone_size = 8192`, which
violates the claimed bound `wp <= start + max_capacity = 4096`. -/
theorem C5_finish_counterexample :
    ZoneInv 8192 zoneC5 ∧
    (zoneFinish 8192 .ok zoneC5).1 = .ok ∧
    (zoneFinish 8192 .ok zoneC5).2.wp = 8192 ∧
    zoneC5.start + zoneC5.maxCapacity = 4096 ∧
    ¬((zoneFinish 8192 .ok zoneC5).2.wp ≤ zoneC5.start + zoneC5.maxCapacity) := by
  decide

/-- Witness for C5: filling `zoneC5` with two 2048-byte writes keeps
the invariant (the resulting zone is exactly full). -/
theorem C5_zone_invariant_amended_witness :
    ZoneInv 8192
      { start := 0, maxCapacity := 4096, wp := 4096, capacity := 0,
        usedCapacity := 0, lifetime := 0, resetCount := 0, busy := true,
        offline := false } :=
  (C5_zone_invariant_amended 8192 devC7 0 0 (.append [2048, 2048] 4096) zoneC5
    (by decide) (by decide)).1 .ok _ (by decide)

/-! ### C2: `GetBestOpenZoneMatch` -/

/-- For enum-valued zone hints the lifetime diff never exceeds the
`NOT_GOOD` sentinel. -/
theorem getLifeTimeDiff_le (zl fl : ℕ) (h : zl ≤ WLTH_EXTREME) :
    getLifeTimeDiff zl fl ≤ LIFETIME_DIFF_NOT_GOOD := by
  unfold getLifeTimeDiff LIFETIME_DIFF_NOT_GOOD LIFETIME_DIFF_COULD_BE_WORSE
  unfold WLTH_EXTREME at h
  split
  · split <;> omega
  · split
    · omega
    · split <;> omega

/-- Full characterisation of the scan loop: starting from accumulator
`(best, cur)`, either no candidate of the remaining list beats `best`
and the accumulator is returned, or the result is the last candidate
achieving the minimum diff among candidates at most `best`. -/
theorem bestOpenScan_spec (fileLifetime minCapacity : ℕ) :
    ∀ (l : List ZoneState) (i best : ℕ) (cur : Option ℕ),
      (bestOpenScan fileLifetime minCapacity l i best cur = (best, cur) ∧
        ∀ (j : ℕ) (zj : ZoneState), l[j]? = some zj → openCandidate minCapacity zj →
          best < getLifeTimeDiff zj.lifetime fileLifetime) ∨
      (∃ j zj, l[j]? = some zj ∧ openCandidate minCapacity zj ∧
        bestOpenScan fileLifetime minCapacity l i best cur =
          (getLifeTimeDiff zj.lifetime fileLifetime, some (i + j)) ∧
        getLifeTimeDiff zj.lifetime fileLifetime ≤ best ∧
        (∀ (k : ℕ) (zk : ZoneState), l[k]? = some zk → openCandidate minCapacity zk →
          getLifeTimeDiff zj.lifetime fileLifetime ≤
            getLifeTimeDiff zk.lifetime fileLifetime ∧
          (j < k → getLifeTimeDiff zj.lifetime fileLifetime <
            getLifeTimeDiff zk.lifetime fileLifetime))) := by
  intro l
  induction l with
  | nil =>
    intro i best cur
    left
    refine ⟨rfl, fun j zj hj => ?_⟩
    simp at hj
  | cons z rest ih =>
    intro i best cur
    by_cases hcand : openCandidate minCapacity z
    · by_cases hd : getLifeTimeDiff z.lifetime fileLifetime ≤ best
      · rw [bestOpenScan, if_pos hcand, if_pos hd]
        rcases ih (i + 1) (getLifeTimeDiff z.lifetime fileLifetime) (some i) with
          ⟨hres, hstrict⟩ | ⟨j', zj, hj, hcj, hres, hle, hall⟩
        · right
          refine ⟨0, z, by simp, hcand, by simpa using hres, hd, ?_⟩
          intro k zk hk hck
          cases k with
          | zero =>
            simp only [List.getElem?_cons_zero, Option.some.injEq] at hk
            rw [← hk]
            exact ⟨le_refl _, fun h0 => absurd h0 (by omega)⟩
          | succ k' =>
            simp only [List.getElem?_cons_succ] at hk
            have := hstrict k' zk hk hck
            exact ⟨by omega, fun _ => by omega⟩
        · right
          refine ⟨j' + 1, zj, by simpa using hj, hcj, ?_, by omega, ?_⟩
          · rw [hres]
            congr 2
            omega
          · intro k zk hk hck
            cases k with
            | zero =>
              simp only [List.getElem?_cons_zero, Option.some.injEq] at hk
              rw [← hk]
              exact ⟨by omega, fun hlt0 => absurd hlt0 (by omega)⟩
            | succ k' =>
              simp only [List.getElem?_cons_succ] at hk
              have := hall k' zk hk hck
              exact ⟨this.1, fun hjk => this.2 (by omega)⟩
      · rw [bestOpenScan, if_pos hcand, if_neg hd]
        rcases ih (i + 1) best cur with
          ⟨hres, hstrict⟩ | ⟨j', zj, hj, hcj, hres, hle, hall⟩
        · left
          refine ⟨hres, fun k zk hk hck => ?_⟩
          cases k with
          | zero =>
            simp only [List.getElem?_cons_zero, Option.some.injEq] at hk
            rw [← hk]
            omega
          | succ k' =>
            simp only [List.getElem?_cons_succ] at hk
            exact hstrict k' zk hk hck
        · right
          refine ⟨j' + 1, zj, by simpa using hj, hcj, ?_, hle, ?_⟩
          · rw [hres]
            congr 2
            omega
          · intro k zk hk hck
            cases k with
            | zero =>
              simp only [List.getElem?_cons_zero, Option.some.injEq] at hk
              rw [← hk]
              exact ⟨by omega, fun _ => by omega⟩
            | succ k' =>
              simp only [List.getElem?_cons_succ] at hk
              have := hall k' zk hk hck
              exact ⟨this.1, fun hjk => this.2 (by omega)⟩
    · rw [bestOpenScan, if_neg hcand]
      rcases ih (i + 1) best cur with
        ⟨hres, hstrict⟩ | ⟨j', zj, hj, hcj, hres, hle, hall⟩
      · left
        refine ⟨hres, fun k zk hk hck => ?_⟩
        cases k with
        | zero =>
          simp only [List.getElem?_cons_zero, Option.some.injEq] at hk
          rw [← hk] at hck
          exact absurd hck hcand
        | succ k' =>
          simp only [List.getElem?_cons_succ] at hk
          exact hstrict k' zk hk hck
      · right
        refine ⟨j' + 1, zj, by simpa using hj, hcj, ?_, hle, ?_⟩
        · rw [hres]
          congr 2
          omega
        · intro k zk hk hck
          cases k with
          | zero =>
            simp only [List.getElem?_cons_zero, Option.some.injEq] at hk
            rw [← hk] at hck
            exact absurd hck hcand
          | succ k' =>
            simp only [List.getElem?_cons_succ] at hk
            have := hall k' zk hk hck
            exact ⟨this.1, fun hjk => this.2 (by omega)⟩

/-- C2 (counterexample): two identical candidate zones, both with
lifetime diff `LIFETIME_DIFF_NOT_GOOD = 100` against a `SHORT` request:
`GetBestOpenZoneMatch` returns the second one (`diff <= best_diff`
makes later ties win), not the first, and not null — refuting both the
first-wins tie break and the "a diff-100 zone is never selected"
part of the claim. -/
theorem C2_bestOpenZoneMatch_counterexample :
    openCandidate 0 zoneC2 ∧
    getLifeTimeDiff zoneC2.lifetime WLTH_SHORT = LIFETIME_DIFF_NOT_GOOD ∧
    getBestOpenZoneMatch WLTH_SHORT 0 [zoneC2, zoneC2] =
      (LIFETIME_DIFF_NOT_GOOD, some 1) := by
  decide

/-- C2 (amended): a zone is a candidate iff its busy flag is free,
`used_capacity > 0`, it is not full and `capacity >= min_capacity`;
`zone_out` is null iff there is no candidate (in particular a candidate
whose diff is the sentinel 100 is selected); otherwise the returned
zone is a candidate achieving the minimal diff, with ties broken in
favour of the last candidate in `io_zones` iteration order; the
returned `best_diff` is the minimal candidate diff, or 100 when there
is no candidate. -/
theorem C2_bestOpenZoneMatch_amended (fileLifetime minCapacity : ℕ)
    (zones : List ZoneState)
    (hz : ∀ z ∈ zones, z.lifetime ≤ WLTH_EXTREME) :
    ((getBestOpenZoneMatch fileLifetime minCapacity zones).2 = none ↔
      ∀ z ∈ zones, ¬openCandidate minCapacity z) ∧
    ((getBestOpenZoneMatch fileLifetime minCapacity zones).2 = none →
      (getBestOpenZoneMatch fileLifetime minCapacity zones).1 =
        LIFETIME_DIFF_NOT_GOOD) ∧
    (∀ i, (getBestOpenZoneMatch fileLifetime minCapacity zones).2 = some i →
      ∃ z, zones[i]? = some z ∧ openCandidate minCapacity z ∧
        getLifeTimeDiff z.lifetime fileLifetime =
          (getBestOpenZoneMatch fileLifetime minCapacity zones).1 ∧
        (∀ (j : ℕ) (zj : ZoneState), zones[j]? = some zj → openCandidate minCapacity zj →
          (getBestOpenZoneMatch fileLifetime minCapacity zones).1 ≤
            getLifeTimeDiff zj.lifetime fileLifetime ∧
          (i < j → (getBestOpenZoneMatch fileLifetime minCapacity zones).1 <
            getLifeTimeDiff zj.lifetime fileLifetime))) := by
  rcases bestOpenScan_spec fileLifetime minCapacity zones 0 LIFETIME_DIFF_NOT_GOOD none
    with ⟨hres, hstrict⟩ | ⟨j, zj, hj, hcj, hres, hle, hall⟩
  · unfold getBestOpenZoneMatch
    rw [hres]
    refine ⟨⟨fun _ z hmem hc => ?_, fun _ => rfl⟩, fun _ => rfl, fun i hi => ?_⟩
    · obtain ⟨k, hk⟩ := List.get_of_mem hmem
      have hk' : zones[k.1]? = some z := by
        rw [List.getElem?_eq_getElem k.2]
        simp [← hk, List.get_eq_getElem]
      have := hstrict k.1 z hk' hc
      have hle100 := getLifeTimeDiff_le z.lifetime fileLifetime (hz z hmem)
      omega
    · exact absurd hi (by simp)
  · unfold getBestOpenZoneMatch
    rw [hres]
    have hjmem : zj ∈ zones := List.getElem?_mem hj
    refine ⟨⟨fun hn => ?_, fun hnone => ?_⟩, fun hn => ?_, fun i hi => ?_⟩
    · exact absurd hn (by simp)
    · exact absurd hcj (hnone zj hjmem)
    · exact absurd hn (by simp)
    · simp only [Option.some.injEq] at hi
      have hji : j = i := by omega
      subst hji
      exact ⟨zj, hj, hcj, rfl, fun k zk hk hck => hall k zk hk hck⟩

/-- Witness for C2: on the two-candidate list the match is not null and
the returned diff is the minimal candidate diff (100). -/
theorem C2_bestOpenZoneMatch_amended_witness :
    (getBestOpenZoneMatch WLTH_SHORT 0 [zoneC2, zoneC2]).2 ≠ none ∧
    openCandidate 0 zoneC2 := by
  have h := C2_bestOpenZoneMatch_amended WLTH_SHORT 0 [zoneC2, zoneC2] (by decide)
  exact ⟨fun hn => absurd (by decide : openCandidate 0 zoneC2)
    (h.1.mp hn zoneC2 (by decide)), by decide⟩

/-! ### C4: counters after `ZonedBlockDevice::Open` -/

/-- The io-zone loop computes the number of sequential-write-required,
non-offline, active listing entries it scans. -/
theorem ioScanActive_eq (l : List ZDesc) :
    ∀ acc, ioScanActive l acc =
      acc + l.countP (fun d => d.swr && !d.offline && d.active) := by
  induction l with
  | nil => intro acc; rw [ioScanActive]; simp
  | cons d rest ih =>
    intro acc
    cases hswr : d.swr <;> cases hoff : d.offline <;> cases hact : d.active <;>
      (simp [ioScanActive, hswr, hoff, hact, List.countP_cons, ih]; try omega)

/-- C4 (counterexample): on a 35-zone listing whose io segment contains
one backend-reported active (and open) zone, a successful `Open` leaves
`active_io_zones_ = 1`, not 0: the counter is incremented per
pre-existing active zone and closing the zone does not reset it. -/
theorem C4_open_counts_counterexample :
    zbdOpen false true 35 0 0 listingC4 =
      (.ok, some
        { maxActiveIoZones := 35, maxOpenIoZones := 35,
          activeIoZones := 1, openIoZones := 0 }) ∧
    (1 : ℕ) ≠ 0 := by
  decide

/-- C4 (amended): after a successful `Open` the open-zone count is 0,
and the active-zone count equals the number of sequential-write-required
non-offline zones the backend reported active in the io segment of the
listing (pre-existing active zones are counted, not normalized away;
only the open count starts at 0). -/
theorem C4_open_counts_amended (readonly exclusive : Bool)
    (nrZones maxActive maxOpen : ℕ) (listing : List ZDesc) (res : OpenResult)
    (h : zbdOpen readonly exclusive nrZones maxActive maxOpen listing =
      (.ok, some res)) :
    res.openIoZones = 0 ∧
    res.activeIoZones =
      (splitMeta 0 listing).countP (fun d => d.swr && !d.offline && d.active) := by
  unfold zbdOpen at h
  split at h
  · exact absurd h (by simp)
  · split at h
    · exact absurd h (by simp)
    · by_cases hlen : listing.length ≠ nrZones
      · simp only [if_pos hlen] at h
        exact absurd h (by simp)
      · simp only [if_neg hlen, Prod.mk.injEq] at h
        obtain ⟨-, h2⟩ := h
        simp only [Option.some.injEq] at h2
        rw [← h2]
        refine ⟨rfl, ?_⟩
        show ioScanActive (splitMeta 0 listing) 0 =
          (splitMeta 0 listing).countP (fun d => d.swr && !d.offline && d.active)
        rw [ioScanActive_eq]
        omega

/-- Witness for C4 on `listingC4`: `Open` succeeds, the open count is 0
and the active count is 1. -/
theorem C4_open_counts_amended_witness :
    zbdOpen false true 35 0 0 listingC4 =
      (.ok, some
        { maxActiveIoZones := 35, maxOpenIoZones := 35,
          activeIoZones := 1, openIoZones := 0 }) ∧
    ({ maxActiveIoZones := 35, maxOpenIoZones := 35,
       activeIoZones := 1, openIoZones := 0 } : OpenResult).openIoZones = 0 ∧
    ({ maxActiveIoZones := 35, maxOpenIoZones := 35,
       activeIoZones := 1, openIoZones := 0 } : OpenResult).activeIoZones = 1 := by
  have heq : zbdOpen false true 35 0 0 listingC4 =
      (.ok, some
        { maxActiveIoZones := 35, maxOpenIoZones := 35,
          activeIoZones := 1, openIoZones := 0 }) := by decide
  have h := C4_open_counts_amended false true 35 0 0 listingC4 _ heq
  exact ⟨heq, h.1, h.2.trans (by decide)⟩

/-! ### C6: busy-flag accounting of `AllocateMetaZone` -/

/-- The reset operation `Zone::Reset` never touches the busy flag. -/
theorem zoneReset_busy (z : ZoneState) (bs : Status) (off : Bool) (newMax : ℕ)
    (dev : DevState) (mr : ℕ) (sd : ℚ) :
    ((zoneReset z bs off newMax dev mr sd).2.1).busy = z.busy := by
  unfold zoneReset
  split
  · rfl
  · cases off <;> rfl

theorem optmap_succ_eq_some_iff (o : Option ℕ) (n : ℕ) :
    o.map (fun k => k + 1) = some (n + 1) ↔ o = some n := by
  cases o <;> simp

theorem optmap_succ_ne_zero (o : Option ℕ) :
    o.map (fun k => k + 1) ≠ some 0 := by
  cases o <;> simp

/-- Cons step of the `AllocateMetaZone` scan for the three
skip-and-recurse branches (busy at entry, in use, failed reset): the
head is transformed as the branch dictates and the analysis of the tail
carries over with all indices shifted by one. -/
theorem metaScanSpec_cons_skip (m mhead : MZone) (rest : List MZone)
    (r : Status × Option ℕ × List MZone × DevState) (d : DevState)
    (hspec : MetaScanSpec r rest)
    (hbusyTrue : m.z.busy = true → mhead = m)
    (hleak : m.z.busy = false → 0 < m.z.usedCapacity → mhead.z.busy = true)
    (hrel : m.z.busy = false → m.z.usedCapacity = 0 → mhead.z.busy = false) :
    MetaScanSpec (r.1, r.2.1.map (fun k => k + 1), mhead :: r.2.2.1, d)
      (m :: rest) := by
  obtain ⟨hlen, hcl⟩ := hspec
  refine ⟨by simpa using hlen, ?_⟩
  intro i mi mi' hmi hmi'
  cases i with
  | zero =>
    simp only [List.getElem?_cons_zero, Option.some.injEq] at hmi hmi'
    subst hmi
    subst hmi'
    refine ⟨fun h0 => absurd h0 (optmap_succ_ne_zero _), fun ht => hbusyTrue ht,
      fun k _ hk => absurd hk (by omega), fun hbf hu _ => ?_, fun hbf hu _ => hrel hbf hu⟩
    exact ⟨hleak hbf hu, fun h0 => absurd h0 (optmap_succ_ne_zero _)⟩
  | succ j =>
    simp only [List.getElem?_cons_succ] at hmi hmi'
    have hc := hcl j mi mi' hmi hmi'
    refine ⟨?_, hc.2.1, ?_, ?_, ?_⟩
    · intro hsel
      exact hc.1 ((optmap_succ_eq_some_iff _ _).mp hsel)
    · intro k hselk hk
      cases k with
      | zero => exact absurd hselk (optmap_succ_ne_zero _)
      | succ k' =>
        exact hc.2.2.1 k' ((optmap_succ_eq_some_iff _ _).mp hselk) (by omega)
    · intro hbf hu hscan
      have hscan' : ∀ k', r.2.1 = some k' → j < k' := by
        intro k' hk'
        have := hscan (k' + 1) ((optmap_succ_eq_some_iff _ _).mpr hk')
        omega
      obtain ⟨hbz, hne⟩ := hc.2.2.2.1 hbf hu hscan'
      exact ⟨hbz, fun hj => hne ((optmap_succ_eq_some_iff _ _).mp hj)⟩
    · intro hbf hu hscan
      have hscan' : ∀ k', r.2.1 = some k' → j < k' := by
        intro k' hk'
        have := hscan (k' + 1) ((optmap_succ_eq_some_iff _ _).mpr hk')
        omega
      exact hc.2.2.2.2 hbf hu hscan'

/-- Terminal step of the `AllocateMetaZone` scan: the head zone is
selected (index 0), handed back busy-held, and the tail is returned
untouched. -/
theorem metaScanSpec_select (m mhead : MZone) (rest : List MZone) (d : DevState)
    (st : Status) (hbusy : m.z.busy = false) (hhead : mhead.z.busy = true) :
    MetaScanSpec (st, some 0, mhead :: rest, d) (m :: rest) := by
  refine ⟨rfl, ?_⟩
  intro i mi mi' hmi hmi'
  cases i with
  | zero =>
    simp only [List.getElem?_cons_zero, Option.some.injEq] at hmi hmi'
    subst hmi
    subst hmi'
    exact ⟨fun _ => hhead, fun ht => absurd ht (by simp [hbusy]),
      fun k hk hk0 => by simp only [Option.some.injEq] at hk; omega,
      fun _ _ hscan => absurd (hscan 0 rfl) (by omega),
      fun _ _ hscan => absurd (hscan 0 rfl) (by omega)⟩
  | succ j =>
    simp only [List.getElem?_cons_succ] at hmi hmi'
    rw [hmi] at hmi'
    injection hmi' with heq
    refine ⟨fun h0 => ?_, fun _ => heq.symm, fun _ _ _ => heq.symm,
      fun _ _ hscan => absurd (hscan 0 rfl) (by omega),
      fun _ _ hscan => absurd (hscan 0 rfl) (by omega)⟩
    injection h0 with h0
    omega

/-- C6 (amended): `AllocateMetaZone` releases the busy flag of every
meta zone it acquires but does not select, except zones that are in
use: an acquired in-use meta zone is skipped with its busy flag still
set when the function returns.  The selected zone is handed back
busy-held, and zones after it (or busy at entry) are untouched. -/
theorem C6_allocateMetaZone_amended (metaResets : ℕ) (stdDev : ℚ) :
    ∀ (ms : List MZone) (dev : DevState),
      MetaScanSpec (metaScan metaResets stdDev dev ms) ms := by
  intro ms
  induction ms with
  | nil =>
    intro dev
    refine ⟨rfl, ?_⟩
    intro i mi mi' hmi
    simp at hmi
  | cons m rest ih =>
    intro dev
    by_cases hb : m.z.busy
    · have hres : metaScan metaResets stdDev dev (m :: rest) =
          ((metaScan metaResets stdDev dev rest).1,
           (metaScan metaResets stdDev dev rest).2.1.map (fun k => k + 1),
           m :: (metaScan metaResets stdDev dev rest).2.2.1,
           (metaScan metaResets stdDev dev rest).2.2.2) := by
        rw [metaScan, if_pos hb]
      rw [hres]
      exact metaScanSpec_cons_skip m m rest _ _ (ih dev) (fun _ => rfl)
        (fun hf => absurd hb (by simp [hf])) (fun hf => absurd hb (by simp [hf]))
    · have hbf : m.z.busy = false := by simpa using hb
      by_cases hu : 0 < m.z.usedCapacity
      · have hres : metaScan metaResets stdDev dev (m :: rest) =
            ((metaScan metaResets stdDev dev rest).1,
             (metaScan metaResets stdDev dev rest).2.1.map (fun k => k + 1),
             { m with z := { m.z with busy := true } } ::
               (metaScan metaResets stdDev dev rest).2.2.1,
             (metaScan metaResets stdDev dev rest).2.2.2) := by
          rw [metaScan, if_neg hb, if_pos (show 0 <
            ({ m.z with busy := true } : ZoneState).usedCapacity from hu)]
        rw [hres]
        exact metaScanSpec_cons_skip m _ rest _ _ (ih dev)
          (fun ht => absurd ht (by simp [hbf])) (fun _ _ => rfl)
          (fun _ h0 => absurd hu (by omega))
      · by_cases hne : m.z.wp ≠ m.z.start
        · by_cases hok :
            (zoneReset { m.z with busy := true } m.resetStatus m.resetOffline
              m.resetNewMax dev metaResets stdDev).1 = .ok
          · have hres : metaScan metaResets stdDev dev (m :: rest) =
                (.ok, some 0,
                 { m with z := (zoneReset { m.z with busy := true } m.resetStatus
                     m.resetOffline m.resetNewMax dev metaResets stdDev).2.1 } :: rest,
                 (zoneReset { m.z with busy := true } m.resetStatus m.resetOffline
                     m.resetNewMax dev metaResets stdDev).2.2) := by
              rw [metaScan, if_neg hb, if_neg (show ¬0 <
                ({ m.z with busy := true } : ZoneState).usedCapacity from hu),
                if_pos (show ({ m.z with busy := true } : ZoneState).wp ≠
                  ({ m.z with busy := true } : ZoneState).start from hne),
                if_pos hok]
            rw [hres]
            refine metaScanSpec_select m _ rest _ _ hbf ?_
            show (zoneReset { m.z with busy := true } m.resetStatus m.resetOffline
              m.resetNewMax dev metaResets stdDev).2.1.busy = true
            rw [zoneReset_busy]
          · have hres : metaScan metaResets stdDev dev (m :: rest) =
                ((metaScan metaResets stdDev
                    (zoneReset { m.z with busy := true } m.resetStatus m.resetOffline
                      m.resetNewMax dev metaResets stdDev).2.2 rest).1,
                 (metaScan metaResets stdDev
                    (zoneReset { m.z with busy := true } m.resetStatus m.resetOffline
                      m.resetNewMax dev metaResets stdDev).2.2 rest).2.1.map
                   (fun k => k + 1),
                 { m with z := { (zoneReset { m.z with busy := true } m.resetStatus
                     m.resetOffline m.resetNewMax dev metaResets stdDev).2.1 with
                     busy := false } } ::
                   (metaScan metaResets stdDev
                     (zoneReset { m.z with busy := true } m.resetStatus m.resetOffline
                       m.resetNewMax dev metaResets stdDev).2.2 rest).2.2.1,
                 (metaScan metaResets stdDev
                    (zoneReset { m.z with busy := true } m.resetStatus m.resetOffline
                      m.resetNewMax dev metaResets stdDev).2.2 rest).2.2.2) := by
              rw [metaScan, if_neg hb, if_neg (show ¬0 <
                ({ m.z with busy := true } : ZoneState).usedCapacity from hu),
                if_pos (show ({ m.z with busy := true } : ZoneState).wp ≠
                  ({ m.z with busy := true } : ZoneState).start from hne),
                if_neg hok]
            rw [hres]
            exact metaScanSpec_cons_skip m _ rest _ _ (ih _)
              (fun ht => absurd ht (by simp [hbf]))
              (fun _ hpos => absurd hpos hu) (fun _ _ => rfl)
        · have hres : metaScan metaResets stdDev dev (m :: rest) =
              (.ok, some 0, { m with z := { m.z with busy := true } } :: rest,
               dev) := by
            rw [metaScan, if_neg hb, if_neg (show ¬0 <
              ({ m.z with busy := true } : ZoneState).usedCapacity from hu),
              if_neg (show ¬({ m.z with busy := true } : ZoneState).wp ≠
                ({ m.z with busy := true } : ZoneState).start from hne)]
          rw [hres]
          exact metaScanSpec_select m _ rest _ _ hbf rfl

/-- C6 (counterexample): scanning `[mzUsed, mzEmpty]` selects the empty
zone (index 1) but leaves the busy flag of the acquired in-use zone
`mzUsed` set: the acquisition of a used meta zone is never paired with
a release. -/
theorem C6_allocateMetaZone_counterexample :
    (metaScan 0 0 devC6 [mzUsed, mzEmpty]).1 = .ok ∧
    (metaScan 0 0 devC6 [mzUsed, mzEmpty]).2.1 = some 1 ∧
    mzUsed.z.busy = false ∧
    ((metaScan 0 0 devC6 [mzUsed, mzEmpty]).2.2.1[0]?.map (fun mm => mm.z.busy)) =
      some true := by
  decide

/-- Witness for C6: applying the amended theorem to `[mzUsed, mzEmpty]`
at index 0 shows the in-use zone ends busy and is not the selected
zone. -/
theorem C6_allocateMetaZone_amended_witness :
    ({ mzUsed with z := { mzUsed.z with busy := true } } : MZone).z.busy = true ∧
    (metaScan 0 0 devC6 [mzUsed, mzEmpty]).2.1 ≠ some 0 := by
  have h := C6_allocateMetaZone_amended 0 0 [mzUsed, mzEmpty] devC6
  have hsel : (metaScan 0 0 devC6 [mzUsed, mzEmpty]).2.1 = some 1 := by decide
  have h4 := (h.2 0 mzUsed { mzUsed with z := { mzUsed.z with busy := true } }
    (by decide) (by decide)).2.2.2.1 (by decide) (by decide)
    (fun k hk => by rw [hsel] at hk; injection hk with hk; omega)
  exact ⟨h4.1, h4.2⟩

/-! ### C10: error exits of `GetMigrateTargetZone` -/

/-- C10: entered with no migration in flight, every `Corruption` return
of `GetMigrateTargetZone` (a failed `CheckRelease` in either scan)
leaves `migrating_` still true with no target handed out; when the
first scan finds no empty target and the second scan faults, the
function additionally returns without putting back the open-zone token
taken at entry (the count stays one above the caller's); a first-scan
fault does put the token back, so a `Corruption` exit leaves the count
at most one above; only the `NotFound` exit clears `migrating_`, and
the `OK` exit returns a target with `migrating_` true. -/
theorem C10_migrateTarget_error_paths (s : MigState) (faults : List Bool)
    (fileLifetime minCapacity : ℕ) (hm : s.migrating = false) :
    ((getMigrateTargetZone s faults fileLifetime minCapacity).status = .corruption →
      (getMigrateTargetZone s faults fileLifetime minCapacity).migrating = true ∧
      (getMigrateTargetZone s faults fileLifetime minCapacity).out = none) ∧
    ((getMigrateTargetZone s faults fileLifetime minCapacity).status = .notFound →
      (getMigrateTargetZone s faults fileLifetime minCapacity).migrating = false ∧
      (getMigrateTargetZone s faults fileLifetime minCapacity).out = none) ∧
    ((getMigrateTargetZone s faults fileLifetime minCapacity).status = .ok →
      (getMigrateTargetZone s faults fileLifetime minCapacity).migrating = true ∧
      (getMigrateTargetZone s faults fileLifetime minCapacity).out ≠ none) ∧
    (∀ f1, migScan1 faults none s.zones = (.done none, f1) →
      (migScan2 fileLifetime minCapacity f1 none s.zones).1 = .fault →
      (getMigrateTargetZone s faults fileLifetime minCapacity).status = .corruption ∧
      (getMigrateTargetZone s faults fileLifetime minCapacity).openIoZones =
        s.openIoZones + 1) ∧
    ((getMigrateTargetZone s faults fileLifetime minCapacity).status = .corruption →
      (getMigrateTargetZone s faults fileLifetime minCapacity).openIoZones =
        s.openIoZones ∨
      (getMigrateTargetZone s faults fileLifetime minCapacity).openIoZones =
        s.openIoZones + 1) := by
  rcases h1 : migScan1 faults none s.zones with ⟨r1, f1⟩
  cases r1 with
  | fault =>
    simp only [getMigrateTargetZone, h1]
    exact ⟨fun _ => ⟨by simp, by simp⟩, fun h => Status.noConfusion h,
      fun h => Status.noConfusion h, fun f1' hcontr => absurd hcontr (by simp),
      fun _ => Or.inl (by omega)⟩
  | done target =>
    cases target with
    | some t =>
      by_cases hact : s.activeIoZones < s.maxActiveIoZones
      · simp only [getMigrateTargetZone, h1, if_pos hact]
        exact ⟨fun h => Status.noConfusion h, fun h => Status.noConfusion h,
          fun _ => ⟨by simp, by simp⟩, fun f1' hcontr => absurd hcontr (by simp),
          fun h => Status.noConfusion h⟩
      · rcases h2 : migScan2 fileLifetime minCapacity f1 none s.zones with ⟨r2, f2⟩
        cases r2 with
        | fault =>
          simp only [getMigrateTargetZone, h1, if_neg hact, h2]
          exact ⟨fun _ => ⟨by simp, by simp⟩, fun h => Status.noConfusion h,
            fun h => Status.noConfusion h, fun f1' hcontr => absurd hcontr (by simp),
            fun _ => Or.inl (by omega)⟩
        | done t2 =>
          cases t2 with
          | some z2 =>
            simp only [getMigrateTargetZone, h1, if_neg hact, h2]
            exact ⟨fun h => Status.noConfusion h, fun h => Status.noConfusion h,
              fun _ => ⟨by simp, by simp⟩, fun f1' hcontr => absurd hcontr (by simp),
              fun h => Status.noConfusion h⟩
          | none =>
            simp only [getMigrateTargetZone, h1, if_neg hact, h2]
            exact ⟨fun h => Status.noConfusion h, fun _ => ⟨by simp, by simp⟩,
              fun h => Status.noConfusion h, fun f1' hcontr => absurd hcontr (by simp),
              fun h => Status.noConfusion h⟩
    | none =>
      rcases h2 : migScan2 fileLifetime minCapacity f1 none s.zones with ⟨r2, f2⟩
      cases r2 with
      | fault =>
        simp only [getMigrateTargetZone, h1, h2]
        exact ⟨fun _ => ⟨by simp, by simp⟩, fun h => Status.noConfusion h,
          fun h => Status.noConfusion h, fun f1' hcontr hsc2 => ⟨by simp, by simp⟩,
          fun _ => Or.inr (by simp)⟩
      | done t2 =>
        cases t2 with
        | some z2 =>
          simp only [getMigrateTargetZone, h1, h2]
          refine ⟨fun h => Status.noConfusion h, fun h => Status.noConfusion h,
            fun _ => ⟨by simp, by simp⟩, ?_, fun h => Status.noConfusion h⟩
          intro f1' hcontr hsc2
          have hff : f1 = f1' := by simpa using congrArg Prod.snd hcontr
          rw [← hff, h2] at hsc2
          exact absurd hsc2 (by simp)
        | none =>
          simp only [getMigrateTargetZone, h1, h2]
          refine ⟨fun h => Status.noConfusion h, fun _ => ⟨by simp, by simp⟩,
            fun h => Status.noConfusion h, ?_, fun h => Status.noConfusion h⟩
          intro f1' hcontr hsc2
          have hff : f1 = f1' := by simpa using congrArg Prod.snd hcontr
          rw [← hff, h2] at hsc2
          exact absurd hsc2 (by simp)

/-- Witness for C10 at `migC10` with fault oracle `[true, false]`: the
first scan finds no empty target (its release of the non-empty zone
succeeds), the second scan's release of the ineligible zone fails, and
the function returns `Corruption` with `migrating_` still true, no
target, and the open-token count left one above the caller's. -/
theorem C10_migrateTarget_error_paths_witness :
    (getMigrateTargetZone migC10 [true, false] WLTH_SHORT 0).status = .corruption ∧
    (getMigrateTargetZone migC10 [true, false] WLTH_SHORT 0).migrating = true ∧
    (getMigrateTargetZone migC10 [true, false] WLTH_SHORT 0).out = none ∧
    (getMigrateTargetZone migC10 [true, false] WLTH_SHORT 0).openIoZones =
      migC10.openIoZones + 1 := by
  have h := C10_migrateTarget_error_paths migC10 [true, false] WLTH_SHORT 0 rfl
  have hst : (getMigrateTargetZone migC10 [true, false] WLTH_SHORT 0).status =
      .corruption := by decide
  have h4 := h.2.2.2.1 [false] (by decide) (by decide)
  exact ⟨hst, (h.1 hst).1, (h.1 hst).2, h4.2⟩

end ZbdZenfs
